import Mathlib

/-!
Shallow embedding of `src/csv2sql.py`: a utility that reads a CSV file and
emits one SQL `WITH ... SELECT ... UNION ALL ...` query reproducing its
contents.  Pure string processing is modelled directly over `String` and
`List Char`; Python's `float` numeral is evaluated exactly over `ℚ`;
exceptions are modelled with `Option`/`Except`.
-/

namespace Csv2Sql

/-- The single-quote character. -/
def squote : Char := Char.ofNat 39

/-- The ASCII whitespace characters Python's `str.strip()` removes
(space, tab, newline, carriage return, vertical tab, form feed). -/
def isSpaceChar (c : Char) : Bool :=
  c = ' ' || c = '\t' || c = '\n' || c = '\r' || c = Char.ofNat 11 || c = Char.ofNat 12

/-- Python `value.strip()`: remove leading and trailing whitespace. -/
def pyStrip (s : String) : String :=
  String.mk (((s.data.dropWhile isSpaceChar).reverse.dropWhile isSpaceChar).reverse)

/-- One character of `value.replace("'", "''")`: a single quote doubles,
anything else stays. -/
def escapeChar (c : Char) : List Char :=
  if c = squote then [squote, squote] else [c]

/-- Python `value.replace("'", "''")`: double every single quote. -/
def escapeQuotes (s : String) : String :=
  String.mk (s.data.flatMap escapeChar)

/-- The three SQL types the tool infers. -/
inductive SqlType
  | INTEGER
  | NUMERIC
  | TEXT
deriving DecidableEq

/-- The SQL spelling of a type. -/
def SqlType.name : SqlType → String
  | .INTEGER => "INTEGER"
  | .NUMERIC => "NUMERIC"
  | .TEXT => "TEXT"

/-- The value of a list of decimal digit characters (most significant first). -/
def digitsVal (cs : List Char) : Nat :=
  cs.foldl (fun a c => 10 * a + (c.toNat - 48)) 0

/-- The unsigned part of a decimal `float` numeral: digits with at most one
decimal point and at least one digit.  The numeral `ip.fp` is evaluated
exactly, as the rational `(ip * 10^|fp| + fp) / 10^|fp|`. -/
def parseBody (cs : List Char) : Option ℚ :=
  let ip := cs.takeWhile (fun c => c ≠ '.')
  match cs.dropWhile (fun c => c ≠ '.') with
  | [] =>
    if ip.all Char.isDigit && !ip.isEmpty then some (mkRat (digitsVal ip) 1) else none
  | _ :: fp =>
    if ip.all Char.isDigit && fp.all Char.isDigit && (!ip.isEmpty || !fp.isEmpty) then
      some (mkRat (digitsVal ip * 10 ^ fp.length + digitsVal fp) (10 ^ fp.length))
    else none

/-- Python `float(value)` on the strings this program feeds it (already
stripped, and containing only characters from `0123456789.-`): an optional
leading minus sign, then digits with at most one decimal point.  The numeral
is evaluated exactly over `ℚ`, where Python evaluates it in double precision;
the classification below only asks whether the parse succeeds, whether the
value is integral, and how it compares with the 32-bit bounds. -/
def pyFloat (s : String) : Option ℚ :=
  match s.data with
  | '-' :: rest => (parseBody rest).map (fun q => -q)
  | cs => parseBody cs

/-- `infer_sql_type` (src/csv2sql.py:23-56): strip the value; return `TEXT`
when it is empty, starts with `+`, starts with `0`, or holds a character
outside `0123456789.-`; otherwise parse it as a number and return `INTEGER`
for an integral value within the signed 32-bit range, `NUMERIC` for any other
number, and `TEXT` when the parse fails.  The first component is the
formatted value (quotes doubled on the `TEXT` paths, as in the source).
A rational is integral exactly when its reduced denominator is 1, and then
it lies in `[-2^31, 2^31-1]` exactly when its numerator does. -/
def inferSqlType (value : String) : String × SqlType :=
  let v := pyStrip value
  if v.data.isEmpty || v.data.head? = some '+' || v.data.head? = some '0'
      || v.data.any (fun c => !(c.isDigit || c = '.' || c = '-')) then
    (escapeQuotes v, SqlType.TEXT)
  else
    match pyFloat v with
    | some q =>
      if q.den = 1 ∧ -(2 ^ 31 : Int) ≤ q.num ∧ q.num ≤ 2 ^ 31 - 1 then (v, SqlType.INTEGER)
      else (v, SqlType.NUMERIC)
    | none => (escapeQuotes v, SqlType.TEXT)

/-- The type component of `infer_sql_type`. -/
def classifyValue (value : String) : SqlType :=
  (inferSqlType value).2

/-- The per-value classification exactly as the specification words it: trim
whitespace; classify `TEXT` if empty, prefixed with `+`, prefixed with a
leading `0`, or containing any character outside `[0-9.-]`; otherwise attempt
a numeric parse, classifying `INTEGER` for an integral value within
`[-2^31, 2^31-1]`, `NUMERIC` for a non-integral or out-of-range value, and
`TEXT` when the parse fails. -/
def specClassify (value : String) : SqlType :=
  let v := pyStrip value
  if v.data.isEmpty then SqlType.TEXT
  else if decide (v.data.head? = some '+') then SqlType.TEXT
  else if decide (v.data.head? = some '0') then SqlType.TEXT
  else if v.data.any (fun c => !(c.isDigit || c = '.' || c = '-')) then SqlType.TEXT
  else
    match pyFloat v with
    | none => SqlType.TEXT
    | some q =>
      if q.den = 1 ∧ -(2 ^ 31 : Int) ≤ q.num ∧ q.num ≤ 2 ^ 31 - 1 then SqlType.INTEGER
      else SqlType.NUMERIC

/-- C1: for every string value, the classification of `infer_sql_type` is the
one the specification describes — trim, then `TEXT` on empty / leading `+` /
leading `0` / a character outside `[0-9.-]`, otherwise `INTEGER`, `NUMERIC`
or `TEXT` by the outcome of the numeric parse; in particular `"01"` and
`"+1"` classify as `TEXT`. -/
theorem inferSqlType_matches_spec :
    (∀ value : String, classifyValue value = specClassify value) ∧
    classifyValue "01" = SqlType.TEXT ∧ classifyValue "+1" = SqlType.TEXT := by
  refine ⟨fun value => ?_, by decide, by decide⟩
  simp only [classifyValue, inferSqlType, specClassify]
  cases h1 : (pyStrip value).data.isEmpty
  · cases h2 : decide ((pyStrip value).data.head? = some '+')
    · cases h3 : decide ((pyStrip value).data.head? = some '0')
      · cases h4 : (pyStrip value).data.any (fun c => !(c.isDigit || c = '.' || c = '-'))
        · cases hq : pyFloat (pyStrip value)
          · simp
          · simp
            try split_ifs <;> rfl
        · simp
      · simp
    · simp
  · simp

/-! ### Column types: `get_column_types` (src/csv2sql.py:94-129) -/

/-- Python dict assignment `d[k] = v` on an association list: overwrite the
existing binding, or append a new one. -/
def dictSet : List (String × SqlType) → String → SqlType → List (String × SqlType)
  | [], k, v => [(k, v)]
  | p :: rest, k, v => if p.1 = k then (k, v) :: rest else p :: dictSet rest k v

/-- Python dict lookup `d[k]`: `none` models a `KeyError`. -/
def dictGet : List (String × SqlType) → String → Option SqlType
  | [], _ => none
  | p :: rest, k => if p.1 = k then some p.2 else dictGet rest k

/-- The loop body of `get_column_types` for one `(col, val)` pair held in
`column_types[col]`: a column already `TEXT` is skipped, a `TEXT` value makes
the column `TEXT`, a `NUMERIC` value upgrades an `INTEGER` column. -/
def updateType (current : SqlType) (val : String) : SqlType :=
  if current = SqlType.TEXT then current
  else
    let inferred := classifyValue val
    if inferred = SqlType.TEXT then SqlType.TEXT
    else if inferred = SqlType.NUMERIC ∧ current = SqlType.INTEGER then SqlType.NUMERIC
    else current

/-- The initialization loop: every column name starts as `INTEGER`. -/
def initTypes (columns : List String) : List (String × SqlType) :=
  columns.foldl (fun d c => dictSet d c SqlType.INTEGER) []

/-- One `(col, val)` step of the analysis loop.  The `none` branch is
unreachable when the dict was initialized over the same column list (Python
would raise `KeyError` there). -/
def typeStep (d : List (String × SqlType)) (p : String × String) : List (String × SqlType) :=
  match dictGet d p.1 with
  | some current => dictSet d p.1 (updateType current p.2)
  | none => d

/-- `get_column_types`: initialize every column as `INTEGER`, then fold the
update over `zip(columns, row)` for every row. -/
def getColumnTypes (columns : List String) (rows : List (List String)) :
    List (String × SqlType) :=
  rows.foldl (fun d row => (columns.zip row).foldl typeStep d) (initTypes columns)

/-- The order `INTEGER < NUMERIC < TEXT` as a rank. -/
def SqlType.rank : SqlType → Nat
  | .INTEGER => 0
  | .NUMERIC => 1
  | .TEXT => 2

/-- The join (least upper bound) of two types under
`INTEGER < NUMERIC < TEXT`. -/
def maxType (a b : SqlType) : SqlType :=
  if a.rank ≤ b.rank then b else a

/-- The join of a list of types; `INTEGER` is the bottom element. -/
def joinList (ts : List SqlType) : SqlType :=
  ts.foldl maxType SqlType.INTEGER

/-- The values of `pairs` whose key is `c`, in order: the cell values of every
column position sharing the name `c`. -/
def valsFor (pairs : List (String × String)) (c : String) : List String :=
  pairs.filterMap (fun p => if p.1 = c then some p.2 else none)

theorem updateType_eq_maxType (t : SqlType) (v : String) :
    updateType t v = maxType t (classifyValue v) := by
  cases t <;> cases h : classifyValue v <;>
    simp [updateType, maxType, SqlType.rank, h]

theorem dictGet_dictSet (d : List (String × SqlType)) (k c : String) (v : SqlType) :
    dictGet (dictSet d k v) c = if k = c then some v else dictGet d c := by
  induction d with
  | nil => simp [dictSet, dictGet]
  | cons p rest ih =>
    by_cases hpk : p.1 = k
    · subst hpk
      by_cases hpc : p.1 = c <;> simp [dictSet, dictGet, hpc]
    · by_cases hpc : p.1 = c
      · subst hpc
        have : ¬ k = p.1 := fun h => hpk h.symm
        simp [dictSet, dictGet, hpk, this]
      · simp [dictSet, dictGet, hpk, hpc, ih]

theorem dictGet_typeStep (d : List (String × SqlType)) (p : String × String) (c : String) :
    dictGet (typeStep d p) c =
      if p.1 = c then (dictGet d c).map (fun t => updateType t p.2)
      else dictGet d c := by
  by_cases hpc : p.1 = c
  · subst hpc
    cases hg : dictGet d p.1 with
    | none => simp [typeStep, hg]
    | some t => simp [typeStep, hg, dictGet_dictSet]
  · cases hg : dictGet d p.1 with
    | none => simp [typeStep, hg, hpc]
    | some t => simp [typeStep, hg, dictGet_dictSet, hpc]

theorem dictGet_foldl_typeStep (pairs : List (String × String))
    (d : List (String × SqlType)) (c : String) :
    dictGet (pairs.foldl typeStep d) c =
      (dictGet d c).map (fun t => (valsFor pairs c).foldl updateType t) := by
  induction pairs generalizing d with
  | nil => cases h : dictGet d c <;> simp [valsFor, h]
  | cons p ps ih =>
    rw [List.foldl_cons, ih, dictGet_typeStep]
    by_cases hpc : p.1 = c
    · cases hg : dictGet d c <;> simp [valsFor, hpc, hg]
    · cases hg : dictGet d c <;> simp [valsFor, hpc, hg]

theorem dictGet_initTypes_foldl (columns : List String)
    (d : List (String × SqlType)) (c : String) :
    dictGet (columns.foldl (fun d c => dictSet d c SqlType.INTEGER) d) c =
      if c ∈ columns then some SqlType.INTEGER else dictGet d c := by
  induction columns generalizing d with
  | nil => simp
  | cons k ks ih =>
    rw [List.foldl_cons, ih, dictGet_dictSet]
    by_cases hk : k = c
    · subst hk
      by_cases hmem : k ∈ ks <;> simp [hmem]
    · have : ¬ c = k := fun h => hk h.symm
      by_cases hmem : c ∈ ks <;> simp [hmem, hk, this]

theorem dictGet_initTypes (columns : List String) (c : String) (hc : c ∈ columns) :
    dictGet (initTypes columns) c = some SqlType.INTEGER := by
  rw [initTypes, dictGet_initTypes_foldl, if_pos hc]

/-- The central dict lemma: the entry for name `c` after `get_column_types`
is the fold of the update over the values of every position named `c`,
row-major. -/
theorem dictGet_getColumnTypes (columns : List String) (rows : List (List String))
    (c : String) (hc : c ∈ columns) :
    dictGet (getColumnTypes columns rows) c =
      some ((rows.flatMap (fun r => valsFor (columns.zip r) c)).foldl
        updateType SqlType.INTEGER) := by
  have main : ∀ (rs : List (List String)) (d : List (String × SqlType)),
      dictGet (rs.foldl (fun d row => (columns.zip row).foldl typeStep d) d) c =
        (dictGet d c).map
          (fun t => (rs.flatMap (fun r => valsFor (columns.zip r) c)).foldl updateType t) := by
    intro rs
    induction rs with
    | nil => intro d; cases h : dictGet d c <;> simp [h]
    | cons r rest ih =>
      intro d
      rw [List.foldl_cons, ih, dictGet_foldl_typeStep]
      cases h : dictGet d c <;> simp [h, List.foldl_append]
  rw [getColumnTypes, main, dictGet_initTypes columns c hc]
  rfl

theorem maxType_integer_right (a : SqlType) : maxType a SqlType.INTEGER = a := by
  cases a <;> rfl

theorem maxType_text_right (a : SqlType) : maxType a SqlType.TEXT = SqlType.TEXT := by
  cases a <;> rfl

theorem maxType_ne_text (a b : SqlType) (ha : a ≠ SqlType.TEXT) (hb : b ≠ SqlType.TEXT) :
    maxType a b ≠ SqlType.TEXT := by
  cases a <;> cases b <;> simp_all [maxType, SqlType.rank]

theorem maxType_numeric_right (a : SqlType) (ha : a ≠ SqlType.TEXT) :
    maxType a SqlType.NUMERIC = SqlType.NUMERIC := by
  cases a <;> simp_all [maxType, SqlType.rank]

theorem foldl_maxType_of_all_integer (ts : List SqlType) (acc : SqlType)
    (h : ∀ t ∈ ts, t = SqlType.INTEGER) : ts.foldl maxType acc = acc := by
  induction ts generalizing acc with
  | nil => rfl
  | cons t ts ih =>
    have ht : t = SqlType.INTEGER := h t (List.mem_cons_self t ts)
    rw [List.foldl_cons, ht, maxType_integer_right]
    exact ih acc (fun t mem => h t (List.mem_cons_of_mem _ mem))

theorem foldl_maxType_text_acc (ts : List SqlType) :
    ts.foldl maxType SqlType.TEXT = SqlType.TEXT := by
  induction ts with
  | nil => rfl
  | cons t ts ih => rw [List.foldl_cons]; cases t <;> exact ih

theorem foldl_maxType_of_text_mem (ts : List SqlType) (acc : SqlType)
    (h : SqlType.TEXT ∈ ts) : ts.foldl maxType acc = SqlType.TEXT := by
  induction ts generalizing acc with
  | nil => cases h
  | cons t ts ih =>
    rw [List.foldl_cons]
    rcases List.mem_cons.mp h with rfl | hmem
    · rw [maxType_text_right]; exact foldl_maxType_text_acc ts
    · exact ih (maxType acc t) hmem

theorem foldl_maxType_numeric (ts : List SqlType) (acc : SqlType)
    (hacc : acc ≠ SqlType.TEXT) (ht : SqlType.TEXT ∉ ts)
    (h : SqlType.NUMERIC ∈ ts ∨ acc = SqlType.NUMERIC) :
    ts.foldl maxType acc = SqlType.NUMERIC := by
  induction ts generalizing acc with
  | nil =>
    rcases h with h | h
    · cases h
    · exact h
  | cons t ts ih =>
    have htt : t ≠ SqlType.TEXT := fun he => ht (he ▸ List.mem_cons_self t ts)
    have htts : SqlType.TEXT ∉ ts := fun hm => ht (List.mem_cons_of_mem _ hm)
    rw [List.foldl_cons]
    rcases h with hmem | hacc2
    · rcases List.mem_cons.mp hmem with rfl | hmem2
      · exact ih (maxType acc SqlType.NUMERIC)
          (maxType_ne_text _ _ hacc htt) htts
          (Or.inr (maxType_numeric_right acc hacc))
      · exact ih (maxType acc t) (maxType_ne_text _ _ hacc htt) htts (Or.inl hmem2)
    · subst hacc2
      refine ih (maxType SqlType.NUMERIC t) (maxType_ne_text _ _ hacc htt) htts (Or.inr ?_)
      cases t <;> simp_all [maxType, SqlType.rank]

theorem foldl_updateType_eq_foldl_maxType (vals : List String) (acc : SqlType) :
    vals.foldl updateType acc = (vals.map classifyValue).foldl maxType acc := by
  induction vals generalizing acc with
  | nil => rfl
  | cons v vs ih =>
    rw [List.foldl_cons, List.map_cons, List.foldl_cons, updateType_eq_maxType, ih]

theorem valsFor_cons (p : String × String) (ps : List (String × String)) (c : String) :
    valsFor (p :: ps) c = if p.1 = c then p.2 :: valsFor ps c else valsFor ps c := by
  by_cases h : p.1 = c <;> simp [valsFor, h]

theorem valsFor_nil_of_not_mem (pairs : List (String × String)) (c : String)
    (h : ∀ p ∈ pairs, p.1 ≠ c) : valsFor pairs c = [] := by
  induction pairs with
  | nil => rfl
  | cons p ps ih =>
    rw [valsFor_cons, if_neg (h p (List.mem_cons_self p ps))]
    exact ih (fun q hq => h q (List.mem_cons_of_mem _ hq))

theorem getD_mem_of_lt {α : Type} (l : List α) (n : Nat) (d : α) (h : n < l.length) :
    l.getD n d ∈ l := by
  induction l generalizing n with
  | nil => simp at h
  | cons x xs ih =>
    cases n with
    | zero => simp
    | succ n =>
      rw [List.getD_cons_succ]
      exact List.mem_cons_of_mem _ (ih n (by simpa using h))

/-- With pairwise-distinct column names and a row of matching length, the
values recorded for the `j`-th column name are exactly that row's `j`-th
cell. -/
theorem valsFor_zip_nodup (columns r : List String) (j : Nat)
    (hnd : columns.Nodup) (hlen : r.length = columns.length) (hj : j < columns.length) :
    valsFor (columns.zip r) (columns.getD j "") = [r.getD j ""] := by
  induction columns generalizing r j with
  | nil => exact absurd hj (by simp)
  | cons ch ct ih =>
    have hnotmem : ch ∉ ct := (List.nodup_cons.mp hnd).1
    have hndt : ct.Nodup := (List.nodup_cons.mp hnd).2
    cases r with
    | nil => simp at hlen
    | cons v vs =>
      have hlen2 : vs.length = ct.length := by simpa using hlen
      cases j with
      | zero =>
        have hnil : valsFor (ct.zip vs) ch = [] := by
          apply valsFor_nil_of_not_mem
          intro p hp hpc
          exact hnotmem (hpc ▸ (List.of_mem_zip hp).1)
        simp [List.zip_cons_cons, valsFor_cons, hnil]
      | succ j =>
        have hj2 : j < ct.length := by simpa using hj
        have hne2 : ¬ ch = ct.getD j "" := by
          intro hch
          exact hnotmem (hch ▸ getD_mem_of_lt ct j "" hj2)
        simp only [List.getD_cons_succ, List.zip_cons_cons, valsFor_cons]
        rw [if_neg hne2, ih vs j hndt hlen2 hj2]

/-- C2: with distinct column names, rows of matching width and at least one
row, the inferred type of column `j` is the join of the per-value
classifications of that column's cells under `INTEGER < NUMERIC < TEXT`; in
particular an all-`INTEGER` column infers `INTEGER`, a `NUMERIC`-containing
column with no `TEXT` infers `NUMERIC`, any `TEXT` value forces `TEXT`, and
a column already at `TEXT` is never changed by a later value. -/
theorem columnType_eq_join (columns : List String) (rows : List (List String)) (j : Nat)
    (hnd : columns.Nodup) (hne : rows ≠ [])
    (hlen : ∀ r ∈ rows, r.length = columns.length) (hj : j < columns.length) :
    dictGet (getColumnTypes columns rows) (columns.getD j "") =
      some (joinList (rows.map (fun r => classifyValue (r.getD j "")))) ∧
    ((∀ r ∈ rows, classifyValue (r.getD j "") = SqlType.INTEGER) →
      dictGet (getColumnTypes columns rows) (columns.getD j "") = some SqlType.INTEGER) ∧
    ((∃ r ∈ rows, classifyValue (r.getD j "") = SqlType.NUMERIC) ∧
        (∀ r ∈ rows, classifyValue (r.getD j "") ≠ SqlType.TEXT) →
      dictGet (getColumnTypes columns rows) (columns.getD j "") = some SqlType.NUMERIC) ∧
    ((∃ r ∈ rows, classifyValue (r.getD j "") = SqlType.TEXT) →
      dictGet (getColumnTypes columns rows) (columns.getD j "") = some SqlType.TEXT) ∧
    (∀ v, updateType SqlType.TEXT v = SqlType.TEXT) := by
  have hcmem : columns.getD j "" ∈ columns := getD_mem_of_lt columns j "" hj
  have hflat : rows.flatMap (fun r => valsFor (columns.zip r) (columns.getD j "")) =
      rows.map (fun r => r.getD j "") := by
    clear hne
    induction rows with
    | nil => rfl
    | cons r rest ih =>
      rw [List.flatMap_cons, List.map_cons,
        valsFor_zip_nodup columns r j hnd (hlen r (List.mem_cons_self r rest)) hj,
        ih (fun r hr => hlen r (List.mem_cons_of_mem _ hr))]
      rfl
  have hmain : dictGet (getColumnTypes columns rows) (columns.getD j "") =
      some (joinList (rows.map (fun r => classifyValue (r.getD j "")))) := by
    rw [dictGet_getColumnTypes columns rows _ hcmem, hflat, joinList,
      foldl_updateType_eq_foldl_maxType, List.map_map]
    rfl
  refine ⟨hmain, ?_, ?_, ?_, fun v => rfl⟩
  · intro hall
    rw [hmain, joinList, foldl_maxType_of_all_integer]
    intro t htm
    rcases List.mem_map.mp htm with ⟨r, hr, rfl⟩
    exact hall r hr
  · rintro ⟨⟨r, hr, hrn⟩, hnotext⟩
    rw [hmain, joinList, foldl_maxType_numeric]
    · intro h; cases h
    · intro hm
      rcases List.mem_map.mp hm with ⟨r2, hr2, he⟩
      exact hnotext r2 hr2 he
    · exact Or.inl (List.mem_map.mpr ⟨r, hr, hrn⟩)
  · rintro ⟨r, hr, hrt⟩
    rw [hmain, joinList, foldl_maxType_of_text_mem]
    exact List.mem_map.mpr ⟨r, hr, hrt⟩

/-- Witness for C2 at the specification's own examples. -/
theorem columnType_eq_join_witness :
    dictGet (getColumnTypes ["c"] [["1"], ["2"], ["3"]]) "c" = some SqlType.INTEGER ∧
    dictGet (getColumnTypes ["c"] [["1"], ["2.5"]]) "c" = some SqlType.NUMERIC := by
  constructor
  · exact (columnType_eq_join ["c"] [["1"], ["2"], ["3"]] 0 (by decide) (by decide)
      (by decide) (by decide)).2.1 (by decide)
  · exact (columnType_eq_join ["c"] [["1"], ["2.5"]] 0 (by decide) (by decide)
      (by decide) (by decide)).2.2.1 (by decide)

/-! ### Column names: `clean_column_name` (src/csv2sql.py:6-21) -/

/-- An ASCII letter, digit or underscore: the regex class `[a-zA-Z0-9_]`. -/
def isWordChar (c : Char) : Bool :=
  ('a' ≤ c && c ≤ 'z') || ('A' ≤ c && c ≤ 'Z') || c.isDigit || c = '_'

/-- `clean_column_name`: strip the header, replace every character outside
`[a-zA-Z0-9_]` with `_`, and prefix `col_` when the result starts with a
digit.  `none` models the `IndexError` Python raises at `clean_name[0]` when
the stripped header is empty. -/
def cleanColumnName (column : String) : Option String :=
  let cleaned := (pyStrip column).data.map (fun c => if isWordChar c then c else '_')
  match cleaned with
  | [] => none
  | c :: _ => some (if c.isDigit then "col_" ++ String.mk cleaned else String.mk cleaned)

/-- The sanitization procedure exactly as the claim words it, with no
whitespace trimming: replace every character that is not an ASCII letter,
digit or underscore with `_`, then prefix `col_` when the result starts with
a digit. -/
def specSanitize (column : String) : String :=
  let cleaned := column.data.map (fun c => if isWordChar c then c else '_')
  match cleaned with
  | [] => ""
  | c :: _ => if c.isDigit then "col_" ++ String.mk cleaned else String.mk cleaned

/-- The amended procedure: trim surrounding whitespace first, then replace
and prefix as before. -/
def specSanitizeTrimmed (column : String) : String :=
  specSanitize (pyStrip column)

/-- C3 counterexample: on the header `" a"` the code strips the blank first
and returns `"a"`, while the claimed replace-only procedure yields `"_a"`. -/
theorem sanitize_claim_counterexample :
    cleanColumnName " a" = some "a" ∧ specSanitize " a" = "_a" ∧
    cleanColumnName " a" ≠ some (specSanitize " a") := by decide

/-- C3 amended: for every raw header with at least one non-whitespace
character, the sanitized name is obtained by trimming surrounding whitespace,
then replacing every character that is not an ASCII letter, digit or
underscore with `_`, and prefixing `col_` when the result starts with a
digit; in particular `"1st Name"` sanitizes to `"col_1st_Name"`. -/
theorem cleanColumnName_trims_then_sanitizes :
    (∀ column : String, (pyStrip column).data ≠ [] →
      cleanColumnName column = some (specSanitizeTrimmed column)) ∧
    cleanColumnName "1st Name" = some "col_1st_Name" := by
  refine ⟨fun column h => ?_, by decide⟩
  simp only [cleanColumnName, specSanitizeTrimmed, specSanitize]
  cases hm : (pyStrip column).data.map (fun c => if isWordChar c then c else '_') with
  | nil => exact absurd (List.map_eq_nil_iff.mp hm) h
  | cons c cs => rfl

/-- Witness for the amended C3 at `" a"` and `"1st Name"`. -/
theorem cleanColumnName_trims_witness :
    ((pyStrip " a").data ≠ [] ∧ cleanColumnName " a" = some (specSanitizeTrimmed " a")) ∧
    cleanColumnName "1st Name" = some "col_1st_Name" :=
  ⟨⟨by decide, cleanColumnName_trims_then_sanitizes.1 " a" (by decide)⟩,
    cleanColumnName_trims_then_sanitizes.2⟩

/-! ### Row rendering: `row_to_select` (src/csv2sql.py:131-150) -/

/-- One `CAST('<value>' AS <type>) AS <column>` term of `row_to_select`: the
value is stripped and its quotes doubled; `none` models the `KeyError` on a
column name missing from the dict. -/
def castTerm (columnTypes : List (String × SqlType)) (p : String × String) : Option String :=
  (dictGet columnTypes p.1).map (fun t =>
    "CAST('" ++ escapeQuotes (pyStrip p.2) ++ "' AS " ++ t.name ++ ") AS " ++ p.1)

/-- Sequence a fallible map over a list, failing at the first failure. -/
def traverseOption {α β : Type} (f : α → Option β) : List α → Option (List β)
  | [] => some []
  | x :: xs =>
    match f x, traverseOption f xs with
    | some y, some ys => some (y :: ys)
    | _, _ => none

/-- Python's `sep.join(parts)`. -/
def joinSep (sep : String) : List String → String
  | [] => ""
  | [x] => x
  | x :: y :: ys => x ++ sep ++ joinSep sep (y :: ys)

/-- `row_to_select`: one CAST term per `zip(columns, row)` pair, joined with
`", "` after `"SELECT "`. -/
def rowToSelect (columns row : List String) (columnTypes : List (String × SqlType)) :
    Option String :=
  (traverseOption (castTerm columnTypes) (columns.zip row)).map
    (fun parts => "SELECT " ++ joinSep ", " parts)

/-- C9: the type dict is keyed by sanitized name, so all positions sharing a
name receive one common type — the join of the classifications of the values
of every such position — and (shown on a concrete duplicate-name header)
every occurrence is rendered with that shared type. -/
theorem sharedName_columns_share_type (columns : List String) (rows : List (List String))
    (c : String) (hc : c ∈ columns) :
    dictGet (getColumnTypes columns rows) c =
      some (joinList ((rows.flatMap (fun r => valsFor (columns.zip r) c)).map classifyValue)) ∧
    rowToSelect ["a", "a"] ["1", "x"] (getColumnTypes ["a", "a"] [["1", "x"]]) =
      some "SELECT CAST('1' AS TEXT) AS a, CAST('x' AS TEXT) AS a" := by
  constructor
  · rw [dictGet_getColumnTypes columns rows c hc, foldl_updateType_eq_foldl_maxType]
    rfl
  · rfl

/-- Witness for C9: with header `a,a` and row `1,x`, the shared entry is the
join `TEXT` even though position 0 on its own would be `INTEGER`. -/
theorem sharedName_columns_share_type_witness :
    dictGet (getColumnTypes ["a", "a"] [["1", "x"]]) "a" = some SqlType.TEXT :=
  ((sharedName_columns_share_type ["a", "a"] [["1", "x"]] "a" (by decide)).1).trans (by decide)

/-! ### Assembly: `csv_to_sql` (src/csv2sql.py:152-181) -/

/-- The loop of `csv_to_sql` from row index `i` on: raise on the first row
whose cell count differs from the column count, otherwise emit the tabbed
SELECT and a `" UNION ALL"` separator (an empty string after the last row,
`i = total - 1`). -/
def buildRowParts (columns : List String) (columnTypes : List (String × SqlType))
    (total : Nat) : Nat → List (List String) → Except String (List String)
  | _, [] => Except.ok []
  | i, row :: rest =>
    if row.length ≠ columns.length then
      Except.error ("Row " ++ toString (i + 1) ++ " has " ++ toString row.length ++
        " columns, expected " ++ toString columns.length)
    else
      match rowToSelect columns row columnTypes with
      | none => Except.error "KeyError"
      | some sel =>
        (buildRowParts columns columnTypes total (i + 1) rest).map
          (fun ps => ("\t" ++ sel) :: (if i < total - 1 then " UNION ALL" else "") :: ps)

/-- `csv_to_sql` after `get_data`: compute the column types, build the row
parts, wrap them between `WITH data AS (` and `) \nSELECT * FROM data;`, and
join everything with newlines. -/
def csvToSql (columns : List String) (rows : List (List String)) : Except String String :=
  (buildRowParts columns (getColumnTypes columns rows) rows.length 0 rows).map
    (fun ps => joinSep "\n" ("WITH data AS (" :: ps ++ [") \nSELECT * FROM data;"]))

/-- The column type the specification assigns to name `c`: the join of the
classifications of the values of every position named `c`. -/
def specColumnType (columns : List String) (rows : List (List String)) (c : String) :
    SqlType :=
  joinList ((rows.flatMap (fun r => valsFor (columns.zip r) c)).map classifyValue)

/-- The SELECT statement the specification describes for one row: one
`CAST('<escaped value>' AS <column type>) AS <column name>` term per column
in header order, quotes doubled, joined with `", "`. -/
def specSelect (columns : List String) (rows : List (List String)) (row : List String) :
    String :=
  "SELECT " ++ joinSep ", " ((columns.zip row).map (fun p =>
    "CAST('" ++ escapeQuotes (pyStrip p.2) ++ "' AS " ++
      (specColumnType columns rows p.1).name ++ ") AS " ++ p.1))

/-- The query the specification describes: the per-row SELECTs joined by
`UNION ALL`, wrapped as `WITH data AS ( ... ) SELECT * FROM data;` (with the
code's newline and tab layout). -/
def specSql (columns : List String) (rows : List (List String)) : String :=
  "WITH data AS (" ++ "\n" ++
    joinSep ("\n" ++ " UNION ALL" ++ "\n")
      (rows.map (fun r => "\t" ++ specSelect columns rows r)) ++
    "\n" ++ "\n" ++ ") \nSELECT * FROM data;"

theorem dictGet_getColumnTypes_eq_spec (columns : List String) (rows : List (List String))
    (c : String) (hc : c ∈ columns) :
    dictGet (getColumnTypes columns rows) c = some (specColumnType columns rows c) := by
  rw [dictGet_getColumnTypes columns rows c hc, specColumnType, joinList,
    foldl_updateType_eq_foldl_maxType]

theorem traverseOption_eq_map {α β : Type} (f : α → Option β) (g : α → β) (l : List α)
    (h : ∀ x ∈ l, f x = some (g x)) : traverseOption f l = some (l.map g) := by
  induction l with
  | nil => rfl
  | cons x xs ih =>
    rw [traverseOption, h x (List.mem_cons_self x xs),
      ih (fun y hy => h y (List.mem_cons_of_mem _ hy))]
    rfl

theorem rowToSelect_eq_spec (columns : List String) (rows : List (List String))
    (row : List String) :
    rowToSelect columns row (getColumnTypes columns rows) =
      some (specSelect columns rows row) := by
  rw [rowToSelect, traverseOption_eq_map (castTerm (getColumnTypes columns rows))
    (fun p => "CAST('" ++ escapeQuotes (pyStrip p.2) ++ "' AS " ++
      (specColumnType columns rows p.1).name ++ ") AS " ++ p.1) (columns.zip row) ?_]
  · rfl
  · intro p hp
    rw [castTerm, dictGet_getColumnTypes_eq_spec columns rows p.1 ((List.of_mem_zip hp).1)]
    rfl

theorem joinSep_cons_cons (sep x y : String) (ys : List String) :
    joinSep sep (x :: y :: ys) = x ++ sep ++ joinSep sep (y :: ys) := rfl

theorem joinSep_append_singleton (sep z : String) (ps : List String) (h : ps ≠ []) :
    joinSep sep (ps ++ [z]) = joinSep sep ps ++ sep ++ z := by
  induction ps with
  | nil => cases h rfl
  | cons x xs ih =>
    cases xs with
    | nil => rfl
    | cons y ys =>
      rw [List.cons_append, List.cons_append, joinSep_cons_cons, ← List.cons_append,
        ih (by simp), joinSep_cons_cons]
      simp [String.append_assoc]

theorem buildRowParts_spec (columns : List String) (rows : List (List String)) :
    ∀ (rs : List (List String)) (i : Nat), rs ≠ [] → i + rs.length = rows.length →
      (∀ r ∈ rs, r.length = columns.length) →
      ∃ ps, buildRowParts columns (getColumnTypes columns rows) rows.length i rs =
          Except.ok ps ∧ ps ≠ [] ∧
        joinSep "\n" ps =
          joinSep ("\n" ++ " UNION ALL" ++ "\n")
            (rs.map (fun r => "\t" ++ specSelect columns rows r)) ++ "\n" := by
  intro rs
  induction rs with
  | nil => intro i hne; cases hne rfl
  | cons r rest ih =>
    intro i hne htot hlen
    have hr : r.length = columns.length := hlen r (List.mem_cons_self r rest)
    rw [buildRowParts, if_neg (by simp [hr]), rowToSelect_eq_spec columns rows r]
    cases rest with
    | nil =>
      have hnotlt : ¬ i < rows.length - 1 := by
        simp at htot
        omega
      refine ⟨["\t" ++ specSelect columns rows r, ""], ?_, by simp, ?_⟩
      · simp [buildRowParts, hnotlt, Except.map]
      · show ("\t" ++ specSelect columns rows r) ++ "\n" ++ "" = _
        simp [joinSep]
    | cons r2 rest2 =>
      have hlt : i < rows.length - 1 := by
        simp at htot
        omega
      obtain ⟨ps2, hps2, hne2, hjoin2⟩ := ih (i + 1) (by simp) (by simp at htot ⊢; omega)
        (fun r hr => hlen r (List.mem_cons_of_mem _ hr))
      refine ⟨("\t" ++ specSelect columns rows r) :: " UNION ALL" :: ps2, ?_, by simp, ?_⟩
      · rw [hps2]
        simp [hlt, Except.map]
      · rcases ps2 with _ | ⟨q, qs⟩
        · cases hne2 rfl
        · rw [joinSep_cons_cons, joinSep_cons_cons, hjoin2]
          simp only [List.map_cons, joinSep_cons_cons]
          simp [String.append_assoc]
          have hfold : ∀ x : String, ("\n" : String) ++ (" UNION ALL\n" ++ x) =
              "\n UNION ALL\n" ++ x := by
            intro x
            rw [← String.append_assoc]
            rfl
          rw [hfold]

/-- C4: for every parsed CSV with at least one row and all rows matching the
column count, the generated SQL is exactly the specification's assembly —
per-row `SELECT CAST('<escaped value>' AS <column type>) AS <column name>`
statements in order, joined by `UNION ALL`, wrapped as
`WITH data AS ( ... ) SELECT * FROM data;`. -/
theorem csvToSql_eq_spec (columns : List String) (rows : List (List String))
    (hne : rows ≠ []) (hlen : ∀ r ∈ rows, r.length = columns.length) :
    csvToSql columns rows = Except.ok (specSql columns rows) := by
  obtain ⟨ps, hps, hpne, hjoin⟩ :=
    buildRowParts_spec columns rows rows 0 hne (by simp) hlen
  rw [csvToSql, hps]
  show Except.ok _ = Except.ok _
  congr 1
  rcases ps with _ | ⟨p, ps'⟩
  · cases hpne rfl
  · show joinSep "\n" ("WITH data AS (" :: p :: (ps' ++ [") \nSELECT * FROM data;"])) = _
    rw [joinSep_cons_cons,
      show (p :: (ps' ++ [") \nSELECT * FROM data;"])) =
        ((p :: ps') ++ [") \nSELECT * FROM data;"]) from rfl,
      joinSep_append_singleton _ _ _ (by simp), hjoin, specSql]
    simp [String.append_assoc]

/-- Witness for C4 on a two-row CSV. -/
theorem csvToSql_eq_spec_witness :
    csvToSql ["a"] [["1"], ["x"]] =
      Except.ok ("WITH data AS (\n\tSELECT CAST('1' AS TEXT) AS a\n UNION ALL\n" ++
        "\tSELECT CAST('x' AS TEXT) AS a\n\n) \nSELECT * FROM data;") :=
  (csvToSql_eq_spec ["a"] [["1"], ["x"]] (by decide) (by decide)).trans
    (congrArg Except.ok (by decide))

theorem traverseOption_isSome {α β : Type} (f : α → Option β) (l : List α)
    (h : ∀ x ∈ l, ∃ y, f x = some y) : ∃ ys, traverseOption f l = some ys := by
  induction l with
  | nil => exact ⟨[], rfl⟩
  | cons x xs ih =>
    obtain ⟨y, hy⟩ := h x (List.mem_cons_self x xs)
    obtain ⟨ys, hys⟩ := ih (fun z hz => h z (List.mem_cons_of_mem _ hz))
    refine ⟨y :: ys, ?_⟩
    rw [traverseOption, hy, hys]

theorem rowToSelect_isSome (columns row : List String) (ct : List (String × SqlType))
    (h : ∀ c ∈ columns, ∃ t, dictGet ct c = some t) :
    ∃ s, rowToSelect columns row ct = some s := by
  have hterm : ∀ p ∈ columns.zip row, ∃ y, castTerm ct p = some y := by
    intro p hp
    obtain ⟨t, ht⟩ := h p.1 ((List.of_mem_zip hp).1)
    exact ⟨"CAST('" ++ escapeQuotes (pyStrip p.2) ++ "' AS " ++ t.name ++ ") AS " ++ p.1,
      by rw [castTerm, ht]; rfl⟩
  obtain ⟨parts, hparts⟩ := traverseOption_isSome (castTerm ct) (columns.zip row) hterm
  exact ⟨"SELECT " ++ joinSep ", " parts, by rw [rowToSelect, hparts]; rfl⟩

theorem buildRowParts_error (columns : List String) (ct : List (String × SqlType))
    (total : Nat) :
    ∀ (rs : List (List String)) (k i : Nat), k < rs.length →
      (rs.getD k []).length ≠ columns.length →
      (∀ j, j < k → (rs.getD j []).length = columns.length) →
      (∀ c ∈ columns, ∃ t, dictGet ct c = some t) →
      buildRowParts columns ct total i rs =
        Except.error ("Row " ++ toString (i + k + 1) ++ " has " ++
          toString (rs.getD k []).length ++ " columns, expected " ++
          toString columns.length) := by
  intro rs
  induction rs with
  | nil => intro k i hk; exact absurd hk (by simp)
  | cons r rest ih =>
    intro k i hk hbad hpre hct
    cases k with
    | zero =>
      rw [buildRowParts, if_pos (by simpa using hbad)]
      simp
    | succ k =>
      have hr : r.length = columns.length := by
        have := hpre 0 (Nat.succ_pos k)
        simpa using this
      obtain ⟨sel, hsel⟩ := rowToSelect_isSome columns r ct hct
      rw [buildRowParts, if_neg (by simp [hr]), hsel]
      have hrec := ih k (i + 1) (by simpa using hk) (by simpa using hbad)
        (fun j hj => by simpa using hpre (j + 1) (by omega)) hct
      rw [hrec, show i + 1 + k + 1 = i + (k + 1) + 1 from by omega]
      rfl

/-- C5: when some row's cell count differs from the column count (and `k` is
the first such row index), the conversion fails with an error naming the
1-based row number and the actual versus expected cell counts, and no SQL
string is produced. -/
theorem csvToSql_mismatch_error (columns : List String) (rows : List (List String))
    (k : Nat) (hk : k < rows.length)
    (hbad : (rows.getD k []).length ≠ columns.length)
    (hpre : ∀ j, j < k → (rows.getD j []).length = columns.length) :
    csvToSql columns rows =
      Except.error ("Row " ++ toString (k + 1) ++ " has " ++
        toString (rows.getD k []).length ++ " columns, expected " ++
        toString columns.length) := by
  have h := buildRowParts_error columns (getColumnTypes columns rows) rows.length rows k 0
    hk hbad hpre (fun c hc => ⟨_, dictGet_getColumnTypes columns rows c hc⟩)
  rw [Nat.zero_add] at h
  rw [csvToSql, h]
  rfl

/-- Witness for C5: a 2-column header with a 1-cell second row. -/
theorem csvToSql_mismatch_error_witness :
    csvToSql ["a", "b"] [["1", "2"], ["3"]] =
      Except.error "Row 2 has 1 columns, expected 2" := by
  have h := csvToSql_mismatch_error ["a", "b"] [["1", "2"], ["3"]] 1 (by decide) (by decide)
    (fun j hj => by
      have : j = 0 := by omega
      subst this
      decide)
  rw [h]
  rfl

/-! ### Input: `get_data` (src/csv2sql.py:58-92) and `main` (183-195) -/

/-- `get_data`, with the file system abstracted: `none` models a missing
file, `some records` the parsed CSV records.  The error strings are the
`str()` of the exceptions the code raises: `FileNotFoundError` with the
path, a bare `StopIteration` (whose `str()` is empty) from `next` on a file
with no records, `ValueError` for an empty header record or a header-only
file, and `IndexError` from sanitizing a whitespace-only header cell. -/
def getData (path : String) (file : Option (List (List String))) :
    Except String (List String × List (List String)) :=
  match file with
  | none => Except.error ("Could not find file: " ++ path)
  | some records =>
    match records with
    | [] => Except.error ""
    | header :: rest =>
      if header.isEmpty then Except.error "CSV file appears to be empty"
      else
        match traverseOption cleanColumnName header with
        | none => Except.error "string index out of range"
        | some cols =>
          if rest.isEmpty then Except.error "CSV file contains no data rows"
          else Except.ok (cols, rest)

/-- The whole conversion `csv_to_sql` runs on a file. -/
def runPipeline (path : String) (file : Option (List (List String))) :
    Except String String :=
  match getData path file with
  | Except.error e => Except.error e
  | Except.ok (cols, rows) => csvToSql cols rows

/-- Exit code, stdout lines and stderr lines of one run of the process. -/
structure ProcResult where
  exitCode : Nat
  stdout : List String
  stderr : List String
deriving DecidableEq

/-- `main` invoked with one CSV path: print the SQL and exit 0, or catch the
exception, print one `Error: ...` line to stderr and exit 1. -/
def mainModel (path : String) (file : Option (List (List String))) : ProcResult :=
  match runPipeline path file with
  | Except.ok sql => ⟨0, [sql], []⟩
  | Except.error e => ⟨1, [], ["Error: " ++ e]⟩

/-- C6: for a missing file, a file with no records, or a file with a header
record but no data rows, the conversion fails: no SQL is produced, exactly
one error message is reported, and the process exits non-zero. -/
theorem badInput_fails (path : String) (file : Option (List (List String)))
    (h : file = none ∨ file = some [] ∨ ∃ hdr, file = some [hdr]) :
    ∃ msg, runPipeline path file = Except.error msg ∧
      mainModel path file = ⟨1, [], ["Error: " ++ msg]⟩ := by
  have key : ∃ msg, runPipeline path file = Except.error msg := by
    rcases h with rfl | rfl | ⟨hdr, rfl⟩
    · exact ⟨_, rfl⟩
    · exact ⟨_, rfl⟩
    · by_cases hh : hdr.isEmpty
      · refine ⟨"CSV file appears to be empty", ?_⟩
        simp [runPipeline, getData, hh]
      · cases ht : traverseOption cleanColumnName hdr with
        | none =>
          refine ⟨"string index out of range", ?_⟩
          simp [runPipeline, getData, hh, ht]
        | some cols =>
          refine ⟨"CSV file contains no data rows", ?_⟩
          simp [runPipeline, getData, hh, ht]
  obtain ⟨msg, hmsg⟩ := key
  exact ⟨msg, hmsg, by rw [mainModel, hmsg]⟩

/-- Witness for C6 at a missing file. -/
theorem badInput_fails_witness :
    ∃ msg, runPipeline "data.csv" none = Except.error msg ∧
      mainModel "data.csv" none = ⟨1, [], ["Error: " ++ msg]⟩ :=
  badInput_fails "data.csv" none (Or.inl rfl)

theorem pyStrip_data_eq_nil_iff (s : String) :
    (pyStrip s).data = [] ↔ ∀ c ∈ s.data, isSpaceChar c := by
  show ((s.data.dropWhile isSpaceChar).reverse.dropWhile isSpaceChar).reverse = [] ↔ _
  rw [List.reverse_eq_nil_iff, List.dropWhile_eq_nil_iff]
  constructor
  · intro h
    apply List.dropWhile_eq_nil_iff.mp
    cases hd : s.data.dropWhile isSpaceChar with
    | nil => rfl
    | cons a as =>
      have hh := List.head?_dropWhile_not isSpaceChar s.data
      rw [hd] at hh
      simp only [List.head?_cons] at hh
      have ha : isSpaceChar a := h a (List.mem_reverse.mpr (hd ▸ List.mem_cons_self a as))
      rw [hh] at ha
      cases ha
  · intro h x hx
    rw [List.dropWhile_eq_nil_iff.mpr h] at hx
    cases hx

theorem cleanColumnName_eq_none_iff (s : String) :
    cleanColumnName s = none ↔ ∀ c ∈ s.data, isSpaceChar c := by
  rw [← pyStrip_data_eq_nil_iff]
  cases hd : (pyStrip s).data with
  | nil => simp [cleanColumnName, hd]
  | cons c cs => simp [cleanColumnName, hd]

theorem traverseOption_eq_none {α β : Type} (f : α → Option β) (l : List α) (x : α)
    (hx : x ∈ l) (hfx : f x = none) : traverseOption f l = none := by
  induction l with
  | nil => cases hx
  | cons y ys ih =>
    rw [traverseOption]
    rcases List.mem_cons.mp hx with rfl | hmem
    · cases htl : traverseOption f ys <;> simp [hfx, htl]
    · cases hfy : f y <;> simp [hfy, ih hmem]

/-- C8: sanitization is total exactly on header cells with at least one
non-whitespace character — `clean_column_name` is undefined (Python raises
`IndexError` at `clean_name[0]`) precisely on whitespace-only cells — and a
CSV whose header contains such a cell aborts the whole conversion. -/
theorem emptyHeaderCell_aborts :
    (∀ s : String, cleanColumnName s = none ↔ ∀ c ∈ s.data, isSpaceChar c) ∧
    (∀ (path : String) (hdr : List String) (rest : List (List String)) (cell : String),
      cell ∈ hdr → (∀ c ∈ cell.data, isSpaceChar c) →
      getData path (some (hdr :: rest)) = Except.error "string index out of range") := by
  refine ⟨cleanColumnName_eq_none_iff, ?_⟩
  intro path hdr rest cell hcell hws
  have hhne : ¬ hdr.isEmpty := by
    cases hdr
    · cases hcell
    · simp
  have hnone : traverseOption cleanColumnName hdr = none :=
    traverseOption_eq_none cleanColumnName hdr cell hcell
      ((cleanColumnName_eq_none_iff cell).mpr hws)
  simp [getData, hhne, hnone]

/-- Witness for C8: a whitespace-only header cell `" "`. -/
theorem emptyHeaderCell_aborts_witness :
    cleanColumnName " " = none ∧
    getData "f.csv" (some [[" ", "a"], ["1", "2"]]) =
      Except.error "string index out of range" :=
  ⟨(emptyHeaderCell_aborts.1 " ").mpr (by decide),
    emptyHeaderCell_aborts.2 "f.csv" [" ", "a"] [["1", "2"]] " " (by decide) (by decide)⟩

theorem escapeChar_ne_nil (c : Char) : escapeChar c ≠ [] := by
  by_cases h : c = squote <;> simp [escapeChar, h]

theorem flatMap_escapeChar_ne_nil (l : List Char) (h : l ≠ []) :
    l.flatMap escapeChar ≠ [] := by
  cases l with
  | nil => cases h rfl
  | cons c cs =>
    rw [List.flatMap_cons]
    intro he
    exact escapeChar_ne_nil c (List.append_eq_nil.mp he).1

theorem head?_flatMap_escapeChar (a : Char) (as : List Char) :
    ((a :: as).flatMap escapeChar).head? = some a := by
  rw [List.flatMap_cons]
  by_cases h : a = squote
  · subst h; simp [escapeChar]
  · simp [escapeChar, h]

theorem getLast?_flatMap_escapeChar_not_space (m : List Char)
    (h : ∀ x, m.getLast? = some x → isSpaceChar x = false) :
    ∀ y, (m.flatMap escapeChar).getLast? = some y → isSpaceChar y = false := by
  induction m with
  | nil => intro y hy; cases hy
  | cons a m ih =>
    intro y hy
    cases m with
    | nil =>
      rw [List.flatMap_cons, List.flatMap_nil, List.append_nil] at hy
      by_cases ha : a = squote
      · subst ha
        simp [escapeChar] at hy
        rw [← hy]
        decide
      · rw [escapeChar, if_neg ha] at hy
        simp at hy
        rw [← hy]
        exact h a rfl
    | cons b m2 =>
      rw [List.flatMap_cons, List.getLast?_append] at hy
      have hne : (b :: m2).flatMap escapeChar ≠ [] :=
        flatMap_escapeChar_ne_nil _ (by simp)
      cases hg : ((b :: m2).flatMap escapeChar).getLast? with
      | none =>
        exact absurd (List.getLast?_eq_none_iff.mp hg) hne
      | some z =>
        rw [hg] at hy
        have hzy : z = y := by simpa using hy
        subst hzy
        exact ih (fun x hx => h x (List.getLast?_cons_cons.trans hx)) z hg

theorem getLast?_dropWhile (p : Char → Bool) (l : List Char)
    (h : l.dropWhile p ≠ []) : (l.dropWhile p).getLast? = l.getLast? := by
  induction l with
  | nil => exact absurd rfl h
  | cons x xs ih =>
    by_cases hx : p x
    · rw [List.dropWhile_cons_of_pos hx] at h ⊢
      rw [ih h]
      have hxs : xs ≠ [] := by
        intro he
        rw [he] at h
        exact h rfl
      cases xs with
      | nil => cases hxs rfl
      | cons b bs => rw [List.getLast?_cons_cons]
    · rw [List.dropWhile_cons_of_neg hx]

theorem pyStrip_head_not_space (s : String) (c : Char)
    (h : (pyStrip s).data.head? = some c) : isSpaceChar c = false := by
  have h2 : ((s.data.dropWhile isSpaceChar).reverse.dropWhile isSpaceChar).getLast? =
      some c := by
    rw [← List.head?_reverse]
    exact h
  have hne : (s.data.dropWhile isSpaceChar).reverse.dropWhile isSpaceChar ≠ [] := by
    intro he
    rw [he] at h2
    cases h2
  rw [getLast?_dropWhile isSpaceChar _ hne, List.getLast?_reverse] at h2
  have hh := List.head?_dropWhile_not isSpaceChar s.data
  rw [h2] at hh
  exact hh

theorem pyStrip_getLast_not_space (s : String) (c : Char)
    (h : (pyStrip s).data.getLast? = some c) : isSpaceChar c = false := by
  have h2 : ((s.data.dropWhile isSpaceChar).reverse.dropWhile isSpaceChar).head? =
      some c := by
    rw [← List.getLast?_reverse]
    exact h
  have hh := List.head?_dropWhile_not isSpaceChar (s.data.dropWhile isSpaceChar).reverse
  rw [h2] at hh
  exact hh

/-- The rendered literal of a value with leading or trailing whitespace
differs from the raw cell: the embedded text is the stripped value with
quotes doubled, whose first and last characters are never whitespace. -/
theorem escaped_strip_ne_raw (v : String)
    (h : (∃ c, v.data.head? = some c ∧ isSpaceChar c) ∨
         (∃ c, v.data.getLast? = some c ∧ isSpaceChar c)) :
    escapeQuotes (pyStrip v) ≠ v := by
  intro he
  have hdata : (pyStrip v).data.flatMap escapeChar = v.data := congrArg String.data he
  rcases h with ⟨c, hc, hcs⟩ | ⟨c, hc, hcs⟩
  · cases hm : (pyStrip v).data with
    | nil =>
      rw [hm, List.flatMap_nil] at hdata
      rw [← hdata] at hc
      cases hc
    | cons a as =>
      have hha := head?_flatMap_escapeChar a as
      rw [← hm, hdata, hc] at hha
      have hac : a = c := (Option.some.inj hha).symm
      have hnot := pyStrip_head_not_space v a (by rw [hm]; rfl)
      rw [hac] at hnot
      rw [hnot] at hcs
      cases hcs
  · cases hm : (pyStrip v).data with
    | nil =>
      rw [hm, List.flatMap_nil] at hdata
      rw [← hdata] at hc
      cases hc
    | cons a as =>
      have hlast := getLast?_flatMap_escapeChar_not_space (a :: as)
        (fun x hx => pyStrip_getLast_not_space v x (by rw [hm]; exact hx)) c
        (by rw [← hm, hdata]; exact hc)
      rw [hlast] at hcs
      cases hcs

theorem traverseOption_castTerm_strip_eq (ct : List (String × SqlType)) :
    ∀ (columns row row' : List String), row.map pyStrip = row'.map pyStrip →
      traverseOption (castTerm ct) (columns.zip row) =
        traverseOption (castTerm ct) (columns.zip row') := by
  intro columns
  induction columns with
  | nil => intro row row' _; rfl
  | cons c cs ih =>
    intro row row' h
    cases row with
    | nil =>
      cases row' with
      | nil => rfl
      | cons w ws => simp at h
    | cons v vs =>
      cases row' with
      | nil => simp at h
      | cons w ws =>
        simp only [List.map_cons, List.cons.injEq] at h
        rw [List.zip_cons_cons, List.zip_cons_cons, traverseOption, traverseOption,
          show castTerm ct (c, v) = castTerm ct (c, w) from by simp [castTerm, h.1],
          ih vs ws h.2]

/-- C10: `row_to_select` strips every cell before embedding it — a value with
surrounding whitespace renders as a literal different from the raw cell, the
generated SELECT depends only on the trimmed values (with quotes doubled),
and concretely `" a "` is embedded as `'a'`. -/
theorem valueTrimming :
    (∀ v : String,
      ((∃ c, v.data.head? = some c ∧ isSpaceChar c) ∨
       (∃ c, v.data.getLast? = some c ∧ isSpaceChar c)) →
      escapeQuotes (pyStrip v) ≠ v) ∧
    (∀ (ct : List (String × SqlType)) (columns row row' : List String),
      row.map pyStrip = row'.map pyStrip →
      rowToSelect columns row ct = rowToSelect columns row' ct) ∧
    rowToSelect ["c"] [" a "] [("c", SqlType.TEXT)] =
      some "SELECT CAST('a' AS TEXT) AS c" := by
  refine ⟨escaped_strip_ne_raw, ?_, by rfl⟩
  intro ct columns row row' h
  rw [rowToSelect, rowToSelect, traverseOption_castTerm_strip_eq ct columns row row' h]

/-- Witness for C10 at `" a "` and at a pair of rows with equal trims. -/
theorem valueTrimming_witness :
    escapeQuotes (pyStrip " a ") ≠ " a " ∧
    rowToSelect ["c"] ["x"] [("c", SqlType.TEXT)] =
      rowToSelect ["c"] [" x "] [("c", SqlType.TEXT)] :=
  ⟨valueTrimming.1 " a " (Or.inl ⟨' ', rfl, by decide⟩),
    valueTrimming.2.1 [("c", SqlType.TEXT)] ["c"] ["x"] [" x "] (by decide)⟩

/-! ### Round-trip through a SQL engine (spec section 8) -/

/-- Undo quote-doubling: the string a SQL string-literal body denotes. -/
def unescapeChars : List Char → List Char
  | [] => []
  | [c] => [c]
  | c :: c2 :: rest =>
    if c = squote && c2 = squote then squote :: unescapeChars rest
    else c :: unescapeChars (c2 :: rest)

theorem unescapeChars_flatMap_escapeChar (l : List Char) :
    unescapeChars (l.flatMap escapeChar) = l := by
  induction l with
  | nil => rfl
  | cons c cs ih =>
    rw [List.flatMap_cons]
    by_cases hc : c = squote
    · subst hc
      rw [escapeChar, if_pos rfl]
      show unescapeChars (squote :: squote :: cs.flatMap escapeChar) = squote :: cs
      rw [unescapeChars, if_pos (by simp), ih]
    · rw [escapeChar, if_neg hc]
      show unescapeChars (c :: cs.flatMap escapeChar) = c :: cs
      cases hcs : cs.flatMap escapeChar with
      | nil =>
        have hnil : cs = [] := by
          by_contra hne
          exact flatMap_escapeChar_ne_nil cs hne hcs
        subst hnil
        rfl
      | cons d ds =>
        rw [unescapeChars, if_neg (by simp [hc]), ← hcs, ih]

/-- The string denoted by the body of a generated SQL string literal. -/
def unescapeQuotes (s : String) : String :=
  String.mk (unescapeChars s.data)

theorem unescapeQuotes_escapeQuotes (s : String) :
    unescapeQuotes (escapeQuotes s) = s := by
  show String.mk (unescapeChars (s.data.flatMap escapeChar)) = s
  rw [unescapeChars_flatMap_escapeChar]

/-- A scalar a SQL engine returns: a character string or an exact numeric. -/
inductive Scalar
  | str : String → Scalar
  | num : ℚ → Scalar
deriving DecidableEq

/-- Modelled ANSI evaluation of `CAST('<body>' AS t)` on the string `s` the
literal's body denotes: `TEXT` returns the string unchanged, `INTEGER` and
`NUMERIC` parse it as a decimal numeral (`none` models a cast error). -/
def castEval (t : SqlType) (s : String) : Option Scalar :=
  match t with
  | SqlType.TEXT => some (Scalar.str s)
  | SqlType.INTEGER =>
    (pyFloat s).bind (fun q => if q.den = 1 then some (Scalar.num q) else none)
  | SqlType.NUMERIC => (pyFloat s).map Scalar.num

/-- The table the engine computes from the generated query: for each CSV row
one cast per column, applied to the string denoted by the literal
`row_to_select` embeds (the stripped cell with quotes doubled). -/
def engineRow (columns : List String) (ct : List (String × SqlType))
    (row : List String) : List (Option Scalar) :=
  (columns.zip row).map (fun p =>
    castEval ((dictGet ct p.1).getD SqlType.TEXT)
      (unescapeQuotes (escapeQuotes (pyStrip p.2))))

def engineRun (columns : List String) (rows : List (List String)) :
    List (List (Option Scalar)) :=
  rows.map (engineRow columns (getColumnTypes columns rows))

/-- The claim's right-hand side: the original CSV cells under the same
per-column casts («rows equal to the original CSV rows modulo type
casting»). -/
def originalCast (columns : List String) (rows : List (List String)) :
    List (List (Option Scalar)) :=
  rows.map (fun row => (columns.zip row).map (fun p =>
    castEval ((dictGet (getColumnTypes columns rows) p.1).getD SqlType.TEXT) p.2))

/-- The amended right-hand side: the whitespace-trimmed CSV cells under the
same per-column casts. -/
def trimmedCast (columns : List String) (rows : List (List String)) :
    List (List (Option Scalar)) :=
  rows.map (fun row => (columns.zip row).map (fun p =>
    castEval ((dictGet (getColumnTypes columns rows) p.1).getD SqlType.TEXT)
      (pyStrip p.2)))

/-- C7 counterexample: on the CSV with header `c` and the single (TEXT) cell
`"x "`, executing the generated query returns `"x"`, not the original
`"x "` — a difference type casting does not account for. -/
theorem roundTrip_counterexample :
    engineRun ["c"] [["x "]] ≠ originalCast ["c"] [["x "]] := by decide

/-- C7 amended: executing the generated SQL returns rows equal to the
whitespace-trimmed original CSV rows, modulo type casting. -/
theorem roundTrip_trimmed (columns : List String) (rows : List (List String)) :
    engineRun columns rows = trimmedCast columns rows := by
  have hrow : engineRow columns (getColumnTypes columns rows) =
      fun row => (columns.zip row).map (fun p =>
        castEval ((dictGet (getColumnTypes columns rows) p.1).getD SqlType.TEXT)
          (pyStrip p.2)) := by
    funext row
    simp [engineRow, unescapeQuotes_escapeQuotes]
  rw [engineRun, trimmedCast, hrow]

example : classifyValue "1" = SqlType.INTEGER := by decide
example : classifyValue "2.5" = SqlType.NUMERIC := by decide
example : classifyValue "01" = SqlType.TEXT := by decide
example : classifyValue "+1" = SqlType.TEXT := by decide
example : classifyValue " -5 " = SqlType.INTEGER := by decide
example : classifyValue "1-2" = SqlType.TEXT := by decide
example : classifyValue "2147483648" = SqlType.NUMERIC := by decide
example : classifyValue "-2147483648" = SqlType.INTEGER := by decide
example : classifyValue "" = SqlType.TEXT := by decide
example : classifyValue ".5" = SqlType.NUMERIC := by decide
example : classifyValue "5." = SqlType.INTEGER := by decide

end Csv2Sql
